import Mathlib

/-!
Verification of the production-readiness checker `scripts/prod-check.js`.

The script is embedded shallowly: the process environment is a partial map
from variable names to string values, the outcomes of external interactions
(hosting CLI invocations, file reads, vendor API calls) are parameters of
the embedding, and JavaScript string operations (`trim`, `split`,
`startsWith`, `includes`, the quote-stripping regex) are reimplemented over
`List Char`.  A computation that may raise a JavaScript exception is
modelled as `Except String α`, carrying the error message.
-/

namespace ProdCheck

/-- Process environment: a mutable map from variable name to value.
`none` models an unset variable (`undefined` in JavaScript). -/
abbrev Env := String → Option String

/-- JavaScript truthiness of `process.env[k]`: `undefined` and the empty
string are falsy, every other string is truthy. -/
def truthy (v : Option String) : Bool :=
  match v with
  | none => false
  | some s => s != ""

/-- Assignment `process.env[k] = v`. -/
def setEnv (env : Env) (k v : String) : Env :=
  fun q => if q = k then some v else env q

/-- The environment at process start with nothing set. -/
def emptyEnv : Env := fun _ => none

/-- The ten required variable names (`REQUIRED_VARS` in the source). -/
def REQUIRED_VARS : List String :=
  ["OPENAI_API_KEY",
   "SUPABASE_URL",
   "SUPABASE_SERVICE_ROLE_KEY",
   "STRIPE_PUBLISHABLE_KEY",
   "STRIPE_SECRET_KEY",
   "STRIPE_PRICE_RESPONSE",
   "STRIPE_WEBHOOK_SECRET",
   "SENDGRID_API_KEY",
   "SITE_URL",
   "ENVIRONMENT"]

/-- ASCII whitespace recognised by `String.prototype.trim`. -/
def isWS (c : Char) : Bool :=
  c = ' ' || c = '\t' || c = '\n' || c = '\r'

/-- JavaScript `trim` on a character list: drop whitespace from both ends. -/
def trimChars (s : List Char) : List Char :=
  ((s.dropWhile isWS).reverse.dropWhile isWS).reverse

/-- JavaScript `s.trim()`. -/
def jsTrim (s : String) : String :=
  String.mk (trimChars s.data)

/-- Accumulator-based worker for `split`. -/
def splitCharAux (sep : Char) : List Char → List Char → List (List Char)
  | [], acc => [acc.reverse]
  | c :: cs, acc =>
    if c = sep then acc.reverse :: splitCharAux sep cs []
    else splitCharAux sep cs (c :: acc)

/-- JavaScript `s.split(sep)` for a one-character separator. -/
def splitChar (sep : Char) (s : List Char) : List (List Char) :=
  splitCharAux sep s []

/-- JavaScript `s.includes(c)` for a single character. -/
def containsChar (c : Char) (s : List Char) : Bool :=
  s.any (fun x => x = c)

/-- JavaScript `hay.includes(needle)` for a substring. -/
def containsSub (needle : List Char) : List Char → Bool
  | [] => needle.isEmpty
  | c :: cs => needle.isPrefixOf (c :: cs) || containsSub needle cs

/-- JavaScript `s.startsWith(c)` for a one-character needle. -/
def startsWithChar (c : Char) : List Char → Bool
  | [] => false
  | x :: _ => x = c

/-- A single or double quote character, as matched by the regex
`/^["']|["']$/` in the source. -/
def isQuote (c : Char) : Bool :=
  c = '"' || c = Char.ofNat 39

/-- Remove one leading quote character, if present. -/
def dropLeadQuote : List Char → List Char
  | [] => []
  | c :: cs => if isQuote c then cs else c :: cs

/-- The effect of `value.replace(/^["']|["']$/g, "")`: strip at most one
leading and at most one trailing quote character. -/
def stripQuotes (s : List Char) : List Char :=
  (dropLeadQuote ((dropLeadQuote s).reverse)).reverse

/-- One line of the fallback `.env` file, processed as in the body of the
`for` loop of `loadEnvFromFile`: trim, skip blank and `#`-comment lines and
lines without `=`, split on `=`, rejoin the tail with `=` (so only the
first `=` separates key from value), strip surrounding quotes, and assign
only when key and value are truthy and the key is not already set. -/
def parseLine (env : Env) (line : List Char) : Env :=
  let trimmed := trimChars line
  if trimmed ≠ [] ∧ startsWithChar '#' trimmed = false ∧ containsChar '=' trimmed = true then
    match splitChar '=' trimmed with
    | [] => env
    | key :: valueParts =>
      let value := stripQuotes (List.intercalate ['='] valueParts)
      if key ≠ [] ∧ value ≠ [] ∧ truthy (env (String.mk key)) = false then
        setEnv env (String.mk key) (String.mk value)
      else env
  else env

/-- The parsing loop of `loadEnvFromFile`: split the file content on
newlines and process each line in order. -/
def parseEnvContent (content : String) (env : Env) : Env :=
  (splitChar '\n' content.data).foldl parseLine env

/-- The local filesystem as seen by `loadEnvFromFile`: whether `.env`
exists (`existsSync`), and the outcome of `readFileSync` on it
(`Except.error` models a thrown exception, e.g. a permission error). -/
structure FileSystem where
  envFileExists : Bool
  readEnvFile : Except String String

/-- Model of `loadEnvFromFile`: if `.env` exists, read and parse it.  The source
wraps nothing here in `try`/`catch`, so a failing read propagates as an
exception (`Except.error`). -/
def loadEnvFromFile (fs : FileSystem) (env : Env) : Except String Env :=
  if fs.envFileExists then
    match fs.readEnvFile with
    | .error e => .error e
    | .ok content => .ok (parseEnvContent content env)
  else .ok env

/-- The hosting CLI as seen by `loadEnvFromNetlify`.  `linkOutcome`
distils the whole status/auto-link phase (every sub-step of which the
source wraps in `try`/`catch`): `.error` models any thrown failure there,
`.ok b` means the phase decided linkage `b`.  `envGet k` is the outcome of
`execSync("netlify env:get k")`, which may throw. -/
structure CliWorld where
  linkOutcome : Except String Bool
  envGet : String → Except String String

/-- Filter applied to the trimmed `netlify env:get` output before it is
accepted: non-empty, no literal `Error`, no literal `not found`, positive
length. -/
def goodValue (value : String) : Bool :=
  value != "" && !containsSub "Error".data value.data
    && !containsSub "not found".data value.data && decide (0 < value.length)

/-- Body of the per-variable loop of `loadEnvFromNetlify`: skip variables
that are already truthy in the environment, otherwise fetch the value; a
thrown fetch is caught and skipped, an accepted value is assigned and
counted. -/
def netlifyStep (envGet : String → Except String String) (acc : Env × Nat)
    (varName : String) : Env × Nat :=
  if truthy (acc.1 varName) = true then acc
  else
    match envGet varName with
    | .error _ => acc
    | .ok raw =>
      let value := jsTrim raw
      if goodValue value = true then (setEnv acc.1 varName value, acc.2 + 1)
      else acc

/-- Model of `loadEnvFromNetlify`: if the link phase throws, the outermost `catch`
returns `false`; if not linked, return `false`; otherwise fetch every
required variable not already set and report whether at least one was
loaded. -/
def loadEnvFromNetlify (cli : CliWorld) (env : Env) : Env × Bool :=
  match cli.linkOutcome with
  | .error _ => (env, false)
  | .ok false => (env, false)
  | .ok true =>
    let r := REQUIRED_VARS.foldl (netlifyStep cli.envGet) (env, 0)
    (r.1, decide (0 < r.2))

/-- Model of `mapEnvVars`: copy `STRIPE_PUBLIC_KEY` to `STRIPE_PUBLISHABLE_KEY` and
`STRIPE_PRICE_ID` to `STRIPE_PRICE_RESPONSE` when the alias is truthy and
the canonical name is not. -/
def mapEnvVars (env : Env) : Env :=
  let env1 :=
    if truthy (env "STRIPE_PUBLIC_KEY") = true ∧
        truthy (env "STRIPE_PUBLISHABLE_KEY") = false then
      setEnv env "STRIPE_PUBLISHABLE_KEY" ((env "STRIPE_PUBLIC_KEY").getD "")
    else env
  if truthy (env1 "STRIPE_PRICE_ID") = true ∧
      truthy (env1 "STRIPE_PRICE_RESPONSE") = false then
    setEnv env1 "STRIPE_PRICE_RESPONSE" ((env1 "STRIPE_PRICE_ID").getD "")
  else env1

/-- The environment-resolution phase of `main`: try the hosting CLI; only
when it reports that nothing was loaded, fall back to the `.env` file;
then apply alias mapping.  An exception escaping `loadEnvFromFile`
propagates out (to the top-level handler). -/
def resolveEnv (cli : CliWorld) (fs : FileSystem) (env0 : Env) : Except String Env :=
  let r := loadEnvFromNetlify cli env0
  if r.2 then .ok (mapEnvVars r.1)
  else
    match loadEnvFromFile fs r.1 with
    | .error e => .error e
    | .ok env2 => .ok (mapEnvVars env2)

/-- Presence test of `logEnvStatus`:
`Boolean(process.env[key] && String(process.env[key]).trim())`. -/
def present (env : Env) (k : String) : Bool :=
  match env k with
  | none => false
  | some v => v != "" && jsTrim v != ""

/-- Model of `logEnvStatus`: one presence flag per required variable, in declared
order. -/
def logEnvStatus (env : Env) : List (String × Bool) :=
  REQUIRED_VARS.map (fun k => (k, present env k))

/-- A settled probe outcome: success flag, elapsed milliseconds, detail
text. -/
structure CheckResult where
  ok : Bool
  ms : Nat
  detail : String
deriving DecidableEq, Repr

/-- External outcome seen by `checkOpenAI`: either the completion call
threw (`.error` with the message) or it returned, with
`res.choices?.[0]?.message?.content` as an optional string.  `elapsed` is
the measured wall-clock duration. -/
structure OpenAIWorld where
  response : Except String (Option String)
  elapsed : Nat

/-- External outcome seen by `checkSupabase`: a thrown exception, or the
insert's returned `error` field (`some message`) or success (`none`). -/
structure SupabaseWorld where
  insert : Except String (Option String)
  elapsed : Nat

/-- External outcome seen by `checkStripe`: a thrown exception, or the
product resolution yielding a product id (`productObj?.id`, possibly
absent). -/
structure StripeWorld where
  retrieve : Except String (Option String)
  elapsed : Nat

/-- External outcome seen by `checkSendGrid`: a thrown exception, or the
profile request's optional status code (`response?.statusCode`). -/
structure SendGridWorld where
  request : Except String (Option Nat)
  elapsed : Nat

/-- External outcome seen by `checkSiteUrl`: a thrown exception, or the
HTTP status of the GET on `SITE_URL`. -/
structure SiteWorld where
  response : Except String Nat
  elapsed : Nat

/-- Model of `checkOpenAI` as the promise an `async` function returns: the
`try`/`catch` body converts both branches into a fulfilled Check Result,
so the value is always `.ok`. -/
def checkOpenAI (w : OpenAIWorld) : Except String CheckResult :=
  match w.response with
  | .ok content =>
    let text := content.getD ""
    let ok := text != ""
    .ok ⟨ok, w.elapsed, if ok then "OK" else "Empty response"⟩
  | .error e => .ok ⟨false, w.elapsed, e⟩

/-- Model of `checkSupabase` as a promise: an insert error or a thrown exception
both become a failed, fulfilled Check Result. -/
def checkSupabase (w : SupabaseWorld) : Except String CheckResult :=
  match w.insert with
  | .ok none => .ok ⟨true, w.elapsed, "Inserted dummy record"⟩
  | .ok (some msg) => .ok ⟨false, w.elapsed, "Insert failed: " ++ msg⟩
  | .error e => .ok ⟨false, w.elapsed, e⟩

/-- Model of `checkStripe` as a promise: success requires a product with a truthy
id. -/
def checkStripe (w : StripeWorld) : Except String CheckResult :=
  match w.retrieve with
  | .ok productId =>
    let ok := truthy productId
    .ok ⟨ok, w.elapsed,
      if ok then "Product " ++ productId.getD "" else "No product returned"⟩
  | .error e => .ok ⟨false, w.elapsed, e⟩

/-- Model of `checkSendGrid` as a promise: success requires a truthy status code
below 400 (`response?.statusCode && response.statusCode < 400`). -/
def checkSendGrid (w : SendGridWorld) : Except String CheckResult :=
  match w.request with
  | .ok code =>
    let ok := (code.getD 0 != 0) && decide (code.getD 0 < 400)
    .ok ⟨ok, w.elapsed,
      if ok then "Email API reachable"
      else "Status " ++ (match code with | some n => toString n | none => "undefined")⟩
  | .error e => .ok ⟨false, w.elapsed, e⟩

/-- Model of `checkSiteUrl` as a promise: only an exact HTTP 200 passes, and the
detail always records the actual status. -/
def checkSiteUrl (w : SiteWorld) : Except String CheckResult :=
  match w.response with
  | .ok status => .ok ⟨status == 200, w.elapsed, "HTTP " ++ toString status⟩
  | .error e => .ok ⟨false, w.elapsed, e⟩

/-- The outcomes of all five external interactions for one run. -/
structure ProbeWorld where
  openai : OpenAIWorld
  supabase : SupabaseWorld
  stripe : StripeWorld
  sendgrid : SendGridWorld
  site : SiteWorld

/-- Semantics of `Promise.all` over already-settled promises: rejects with the first
rejection, otherwise fulfills with the list of all values (no partial
result survives a rejection). -/
def promiseAll : List (Except String CheckResult) → Except String (List CheckResult)
  | [] => .ok []
  | p :: ps =>
    match p with
    | .error e => .error e
    | .ok r =>
      match promiseAll ps with
      | .error e => .error e
      | .ok rs => .ok (r :: rs)

/-- The `Promise.all([...])` fan-out of `main` over the five probes. -/
def runChecks (w : ProbeWorld) : Except String (List CheckResult) :=
  promiseAll
    [checkOpenAI w.openai, checkSupabase w.supabase, checkStripe w.stripe,
     checkSendGrid w.sendgrid, checkSiteUrl w.site]

/-- JavaScript `Math.round`: nearest integer, halves toward positive
infinity. -/
def jsMathRound (q : ℚ) : ℤ :=
  ⌊q + 1 / 2⌋

/-- The average-response-time computation of `main`:
`Math.round(responseTimes.reduce((a, b) => a + b, 0) / responseTimes.length)`. -/
def averageMs (checks : List CheckResult) : ℤ :=
  jsMathRound ((checks.map (fun r => (r.ms : ℚ))).sum / (checks.length : ℚ))

/-- Model of `main`, reduced to its exit code: resolve the environment (an escaping
exception reaches the top-level `catch`, exit 1), run all probes (a
rejected `Promise.all` likewise exits 1), then exit 0 exactly when no
required variable is missing and every probe succeeded. -/
def main (cli : CliWorld) (fs : FileSystem) (env0 : Env) (w : ProbeWorld) : Nat :=
  match resolveEnv cli fs env0 with
  | .error _ => 1
  | .ok env =>
    match runChecks w with
    | .error _ => 1
    | .ok checks =>
      let envStatus := logEnvStatus env
      let missingKeys := (envStatus.filter (fun p => !p.2)).map Prod.fst
      let allIntegrationsOk := checks.all (fun r => r.ok)
      let allEnvOk := missingKeys.length == 0
      if allEnvOk && allIntegrationsOk then 0 else 1

/-- A hosting CLI whose very first invocation throws (tool not installed),
as when `netlify` is absent from the PATH. -/
def brokenCli : CliWorld :=
  ⟨.error "netlify: command not found", fun _ => .error "netlify: command not found"⟩

/-- A hosting CLI that reports the project as not linked. -/
def unlinkedCli : CliWorld :=
  ⟨.ok false, fun _ => .error "not linked"⟩

/-- A linked hosting CLI that can serve exactly one variable,
`SITE_URL`. -/
def partialCli : CliWorld :=
  ⟨.ok true, fun q => if q = "SITE_URL" then .ok "https://example.com" else .error "No value"⟩

/-- A filesystem with no `.env` file. -/
def fsAbsent : FileSystem :=
  ⟨false, .error "ENOENT: no such file or directory"⟩

/-- A filesystem where `.env` exists but reading it throws, e.g. for lack
of permission. -/
def fsUnreadable : FileSystem :=
  ⟨true, .error "EACCES: permission denied, open .env"⟩

/-- An environment in which every variable is set to a non-blank value. -/
def envAll : Env := fun _ => some "x"

/-- Probe outcomes in which all five external services respond
successfully, with elapsed times 10..50 ms. -/
def goodProbes : ProbeWorld :=
  ⟨⟨.ok (some "hello"), 10⟩, ⟨.ok none, 20⟩, ⟨.ok (some "prod_123"), 30⟩,
   ⟨.ok (some 200), 40⟩, ⟨.ok 200, 50⟩⟩

/-- Probe outcomes in which every external call throws a network error. -/
def failingProbes : ProbeWorld :=
  ⟨⟨.error "ECONNREFUSED", 1⟩, ⟨.error "ECONNREFUSED", 2⟩,
   ⟨.error "ECONNREFUSED", 3⟩, ⟨.error "ECONNREFUSED", 4⟩,
   ⟨.error "ECONNREFUSED", 5⟩⟩

/-! ## Helper lemmas -/

theorem setEnv_self (env : Env) (k v : String) : setEnv env k v k = some v := by
  simp [setEnv]

theorem setEnv_ne (env : Env) (k v : String) {q : String} (h : q ≠ k) :
    setEnv env k v q = env q := by
  simp [setEnv, h]

theorem truthy_some_iff (v : String) : truthy (some v) = true ↔ v ≠ "" := by
  simp [truthy]

/-- Lemma: `parseLine` writes a key only when it is falsy, so a truthy binding
survives every line. -/
theorem parseLine_preserve (env : Env) (line : List Char) (k : String)
    (h : truthy (env k) = true) : parseLine env line k = env k := by
  unfold parseLine
  split
  · cases hsp : splitChar '=' (trimChars line) with
    | nil => rfl
    | cons key valueParts =>
      dsimp only
      split
      · next hcond =>
        obtain ⟨-, -, hset⟩ := hcond
        by_cases hk : k = String.mk key
        · rw [hk] at h
          rw [h] at hset
          cases hset
        · exact setEnv_ne _ _ _ hk
      · rfl
  · rfl

/-- Folding `parseLine` over any list of lines preserves truthy bindings. -/
theorem parseLine_foldl_preserve (lines : List (List Char)) (env : Env) (k : String)
    (h : truthy (env k) = true) : (lines.foldl parseLine env) k = env k := by
  induction lines generalizing env with
  | nil => rfl
  | cons l ls ih =>
    have hl := parseLine_preserve env l k h
    calc (List.foldl parseLine (parseLine env l) ls) k
        = parseLine env l k := ih (parseLine env l) (by rw [hl]; exact h)
      _ = env k := hl

theorem parseEnvContent_preserve (content : String) (env : Env) (k : String)
    (h : truthy (env k) = true) : parseEnvContent content env k = env k :=
  parseLine_foldl_preserve _ env k h

/-- One Netlify fetch step never disturbs a truthy binding. -/
theorem netlifyStep_preserve (g : String → Except String String) (acc : Env × Nat)
    (v k : String) (h : truthy (acc.1 k) = true) :
    (netlifyStep g acc v).1 k = acc.1 k := by
  unfold netlifyStep
  split
  · rfl
  · next hvtruthy =>
    split
    · rfl
    · dsimp only
      split
      · by_cases hk : k = v
        · rw [hk] at h
          exact absurd h hvtruthy
        · exact setEnv_ne _ _ _ hk
      · rfl

/-- The Netlify fetch loop never disturbs a truthy binding. -/
theorem netlifyFold_preserve (g : String → Except String String)
    (l : List String) (acc : Env × Nat) (k : String)
    (h : truthy (acc.1 k) = true) :
    (l.foldl (netlifyStep g) acc).1 k = acc.1 k := by
  induction l generalizing acc with
  | nil => rfl
  | cons v vs ih =>
    have hs := netlifyStep_preserve g acc v k h
    calc (List.foldl (netlifyStep g) (netlifyStep g acc v) vs).1 k
        = (netlifyStep g acc v).1 k := ih _ (by rw [hs]; exact h)
      _ = acc.1 k := hs

/-- The loaded-variable counter never decreases. -/
theorem netlifyStep_count_le (g : String → Except String String) (acc : Env × Nat)
    (v : String) : acc.2 ≤ (netlifyStep g acc v).2 := by
  unfold netlifyStep
  split
  · exact le_refl _
  · split
    · exact le_refl _
    · dsimp only
      split
      · exact Nat.le_succ _
      · exact le_refl _

theorem netlifyFold_count_le (g : String → Except String String)
    (l : List String) (acc : Env × Nat) :
    acc.2 ≤ (l.foldl (netlifyStep g) acc).2 := by
  induction l generalizing acc with
  | nil => exact le_refl _
  | cons v vs ih => exact le_trans (netlifyStep_count_le g acc v) (ih _)

/-- If a listed key is falsy and its CLI fetch yields an acceptable value,
the fetch loop ends with that key bound to the trimmed value and with a
positive load counter. -/
theorem netlifyFold_sets (g : String → Except String String)
    (l : List String) (acc : Env × Nat) (k : String) (out : String)
    (hk : k ∈ l) (hf : truthy (acc.1 k) = false) (hg : g k = .ok out)
    (hv : goodValue (jsTrim out) = true) :
    (l.foldl (netlifyStep g) acc).1 k = some (jsTrim out) ∧
      0 < (l.foldl (netlifyStep g) acc).2 := by
  have houtne : jsTrim out ≠ "" := by
    intro he
    rw [he] at hv
    exact absurd hv (by decide)
  induction l generalizing acc with
  | nil => cases hk
  | cons v vs ih =>
    by_cases hkv : k = v
    · subst hkv
      have hstep : netlifyStep g acc k = (setEnv acc.1 k (jsTrim out), acc.2 + 1) := by
        unfold netlifyStep
        rw [hf]
        simp only [Bool.false_eq_true, if_false]
        rw [hg]
        simp only [hv, if_true]
      constructor
      · rw [List.foldl_cons, hstep]
        have : truthy (setEnv acc.1 k (jsTrim out) k) = true := by
          rw [setEnv_self]
          exact (truthy_some_iff _).mpr houtne
        rw [netlifyFold_preserve g vs _ k this]
        exact setEnv_self _ _ _
      · rw [List.foldl_cons, hstep]
        calc 0 < acc.2 + 1 := Nat.succ_pos _
          _ ≤ _ := netlifyFold_count_le g vs (setEnv acc.1 k (jsTrim out), acc.2 + 1)
    · have hkvs : k ∈ vs := by
        cases hk with
        | head => exact absurd rfl hkv
        | tail _ h => exact h
      have hpres : (netlifyStep g acc v).1 k = acc.1 k := by
        unfold netlifyStep
        split
        · rfl
        · split
          · rfl
          · dsimp only
            split
            · exact setEnv_ne _ _ _ hkv
            · rfl
      rw [List.foldl_cons]
      exact ih _ hkvs (by rw [hpres]; exact hf)

/-- Lemma: `loadEnvFromNetlify` never disturbs a truthy binding. -/
theorem loadEnvFromNetlify_preserve (cli : CliWorld) (env : Env) (k : String)
    (h : truthy (env k) = true) :
    (loadEnvFromNetlify cli env).1 k = env k := by
  unfold loadEnvFromNetlify
  cases cli.linkOutcome with
  | error e => rfl
  | ok b =>
    cases b with
    | false => rfl
    | true => exact netlifyFold_preserve _ _ _ _ h

/-- Lemma: `mapEnvVars` never disturbs a truthy binding. -/
theorem mapEnvVars_preserve (env : Env) (k : String)
    (h : truthy (env k) = true) : mapEnvVars env k = env k := by
  unfold mapEnvVars
  split
  · next h1 =>
    have e1 : setEnv env "STRIPE_PUBLISHABLE_KEY" ((env "STRIPE_PUBLIC_KEY").getD "") k
        = env k := by
      by_cases hk : k = "STRIPE_PUBLISHABLE_KEY"
      · rw [hk] at h
        rw [h] at h1
        exact absurd h1.2 (by simp)
      · exact setEnv_ne _ _ _ hk
    split
    · next h2 =>
      by_cases hk : k = "STRIPE_PRICE_RESPONSE"
      · have : setEnv env "STRIPE_PUBLISHABLE_KEY" ((env "STRIPE_PUBLIC_KEY").getD "")
            "STRIPE_PRICE_RESPONSE" = env "STRIPE_PRICE_RESPONSE" :=
          setEnv_ne _ _ _ (by decide)
        rw [hk] at h
        rw [this, h] at h2
        exact absurd h2.2 (by simp)
      · rw [setEnv_ne _ _ _ hk]
        exact e1
    · exact e1
  · split
    · next h2 =>
      by_cases hk : k = "STRIPE_PRICE_RESPONSE"
      · rw [hk] at h
        rw [h] at h2
        exact absurd h2.2 (by simp)
      · exact setEnv_ne _ _ _ hk
    · rfl

/-- Lemma: `trimChars` returns the empty list exactly when every character is
whitespace. -/
theorem trimChars_eq_nil_iff (l : List Char) :
    trimChars l = [] ↔ ∀ c ∈ l, isWS c = true := by
  unfold trimChars
  rw [List.reverse_eq_nil_iff, List.dropWhile_eq_nil_iff]
  constructor
  · intro h c hc
    rcases List.mem_append.mp ((List.takeWhile_append_dropWhile (p := isWS) (l := l)) ▸ hc) with
      h1 | h2
    · exact List.mem_takeWhile_imp h1
    · exact h c (List.mem_reverse.mpr h2)
  · intro h c hc
    exact h c ((List.takeWhile_append_dropWhile (p := isWS) (l := l)) ▸
      List.mem_append.mpr (Or.inr (List.mem_reverse.mp hc)))

/-- Each probe's promise is always fulfilled: the `try`/`catch` body turns
every outcome, thrown or not, into a Check Result. -/
theorem checkOpenAI_fulfilled (w : OpenAIWorld) : ∃ r, checkOpenAI w = .ok r := by
  unfold checkOpenAI
  cases w.response <;> exact ⟨_, rfl⟩

theorem checkSupabase_fulfilled (w : SupabaseWorld) : ∃ r, checkSupabase w = .ok r := by
  unfold checkSupabase
  rcases w.insert with e | (_ | v) <;> exact ⟨_, rfl⟩

theorem checkStripe_fulfilled (w : StripeWorld) : ∃ r, checkStripe w = .ok r := by
  unfold checkStripe
  cases w.retrieve <;> exact ⟨_, rfl⟩

theorem checkSendGrid_fulfilled (w : SendGridWorld) : ∃ r, checkSendGrid w = .ok r := by
  unfold checkSendGrid
  cases w.request <;> exact ⟨_, rfl⟩

theorem checkSiteUrl_fulfilled (w : SiteWorld) : ∃ r, checkSiteUrl w = .ok r := by
  unfold checkSiteUrl
  cases w.response <;> exact ⟨_, rfl⟩

/-- The fan-out always fulfills with one result per probe, each computed
from its own probe's outcome alone. -/
theorem runChecks_fulfilled (w : ProbeWorld) :
    ∃ r1 r2 r3 r4 r5, runChecks w = .ok [r1, r2, r3, r4, r5] ∧
      checkOpenAI w.openai = .ok r1 ∧ checkSupabase w.supabase = .ok r2 ∧
      checkStripe w.stripe = .ok r3 ∧ checkSendGrid w.sendgrid = .ok r4 ∧
      checkSiteUrl w.site = .ok r5 := by
  obtain ⟨r1, h1⟩ := checkOpenAI_fulfilled w.openai
  obtain ⟨r2, h2⟩ := checkSupabase_fulfilled w.supabase
  obtain ⟨r3, h3⟩ := checkStripe_fulfilled w.stripe
  obtain ⟨r4, h4⟩ := checkSendGrid_fulfilled w.sendgrid
  obtain ⟨r5, h5⟩ := checkSiteUrl_fulfilled w.site
  refine ⟨r1, r2, r3, r4, r5, ?_, h1, h2, h3, h4, h5⟩
  unfold runChecks
  rw [h1, h2, h3, h4, h5]
  rfl

/-! ## Claims -/

/-- Claim C2: for every combination of probe outcomes, including all five
probes throwing, the `Promise.all` fan-out fulfills with exactly five Check
Results, each probe's result depending only on its own outcome, so no
probe's failure prevents any other probe from completing or aborts the run. -/
theorem c2_all_probes_settle (w : ProbeWorld) :
    ∃ rs, runChecks w = .ok rs ∧ rs.length = 5 ∧
      rs.map Except.ok =
        [checkOpenAI w.openai, checkSupabase w.supabase, checkStripe w.stripe,
         checkSendGrid w.sendgrid, checkSiteUrl w.site] := by
  obtain ⟨r1, r2, r3, r4, r5, hrun, h1, h2, h3, h4, h5⟩ := runChecks_fulfilled w
  exact ⟨[r1, r2, r3, r4, r5], hrun, rfl, by
    rw [List.map_cons, List.map_cons, List.map_cons, List.map_cons, List.map_cons,
      h1, h2, h3, h4, h5]
    rfl⟩

/-- Claim C5: alias mapping copies `STRIPE_PUBLIC_KEY` into
`STRIPE_PUBLISHABLE_KEY` and `STRIPE_PRICE_ID` into
`STRIPE_PRICE_RESPONSE` exactly when the alias is set and the canonical
name is absent, and leaves an already-set canonical name unchanged. -/
theorem c5_alias_mapping (env : Env) :
    (truthy (env "STRIPE_PUBLIC_KEY") = true →
      truthy (env "STRIPE_PUBLISHABLE_KEY") = false →
      mapEnvVars env "STRIPE_PUBLISHABLE_KEY" = env "STRIPE_PUBLIC_KEY") ∧
    (truthy (env "STRIPE_PUBLISHABLE_KEY") = true →
      mapEnvVars env "STRIPE_PUBLISHABLE_KEY" = env "STRIPE_PUBLISHABLE_KEY") ∧
    (truthy (env "STRIPE_PRICE_ID") = true →
      truthy (env "STRIPE_PRICE_RESPONSE") = false →
      mapEnvVars env "STRIPE_PRICE_RESPONSE" = env "STRIPE_PRICE_ID") ∧
    (truthy (env "STRIPE_PRICE_RESPONSE") = true →
      mapEnvVars env "STRIPE_PRICE_RESPONSE" = env "STRIPE_PRICE_RESPONSE") := by
  refine ⟨?_, ?_, ?_, ?_⟩
  · intro h1 h2
    obtain ⟨v, hv⟩ : ∃ v, env "STRIPE_PUBLIC_KEY" = some v := by
      cases hpk : env "STRIPE_PUBLIC_KEY" with
      | none => rw [hpk] at h1; cases h1
      | some v => exact ⟨v, rfl⟩
    unfold mapEnvVars
    have hc : truthy (env "STRIPE_PUBLIC_KEY") = true ∧
        truthy (env "STRIPE_PUBLISHABLE_KEY") = false := ⟨h1, h2⟩
    rw [if_pos hc]
    have hset : setEnv env "STRIPE_PUBLISHABLE_KEY" ((env "STRIPE_PUBLIC_KEY").getD "")
        "STRIPE_PUBLISHABLE_KEY" = env "STRIPE_PUBLIC_KEY" := by
      rw [setEnv_self, hv]
      rfl
    split
    · rw [setEnv_ne _ _ _ (by decide)]
      exact hset
    · exact hset
  · intro h1
    exact mapEnvVars_preserve env _ h1
  · intro h1 h2
    obtain ⟨v, hv⟩ : ∃ v, env "STRIPE_PRICE_ID" = some v := by
      cases hpk : env "STRIPE_PRICE_ID" with
      | none => rw [hpk] at h1; cases h1
      | some v => exact ⟨v, rfl⟩
    unfold mapEnvVars
    by_cases hc1 : truthy (env "STRIPE_PUBLIC_KEY") = true ∧
        truthy (env "STRIPE_PUBLISHABLE_KEY") = false
    · rw [if_pos hc1]
      have ha : setEnv env "STRIPE_PUBLISHABLE_KEY" ((env "STRIPE_PUBLIC_KEY").getD "")
          "STRIPE_PRICE_ID" = env "STRIPE_PRICE_ID" := setEnv_ne _ _ _ (by decide)
      have hb : setEnv env "STRIPE_PUBLISHABLE_KEY" ((env "STRIPE_PUBLIC_KEY").getD "")
          "STRIPE_PRICE_RESPONSE" = env "STRIPE_PRICE_RESPONSE" := setEnv_ne _ _ _ (by decide)
      rw [if_pos ⟨by rw [ha]; exact h1, by rw [hb]; exact h2⟩, setEnv_self, ha, hv]
      rfl
    · rw [if_neg hc1, if_pos ⟨h1, h2⟩, setEnv_self, hv]
      rfl
  · intro h1
    exact mapEnvVars_preserve env _ h1

/-- Witness for C5 at concrete environments: with only the aliases set the
canonical names receive the alias values, and an already-set canonical
name survives. -/
theorem c5_alias_mapping_witness :
    mapEnvVars (setEnv (setEnv emptyEnv "STRIPE_PUBLIC_KEY" "pk") "STRIPE_PRICE_ID" "pr")
        "STRIPE_PUBLISHABLE_KEY" =
      (setEnv (setEnv emptyEnv "STRIPE_PUBLIC_KEY" "pk") "STRIPE_PRICE_ID" "pr")
        "STRIPE_PUBLIC_KEY" ∧
    mapEnvVars (setEnv (setEnv emptyEnv "STRIPE_PUBLIC_KEY" "pk") "STRIPE_PRICE_ID" "pr")
        "STRIPE_PRICE_RESPONSE" =
      (setEnv (setEnv emptyEnv "STRIPE_PUBLIC_KEY" "pk") "STRIPE_PRICE_ID" "pr")
        "STRIPE_PRICE_ID" ∧
    mapEnvVars envAll "STRIPE_PUBLISHABLE_KEY" = envAll "STRIPE_PUBLISHABLE_KEY" ∧
    mapEnvVars envAll "STRIPE_PRICE_RESPONSE" = envAll "STRIPE_PRICE_RESPONSE" :=
  ⟨(c5_alias_mapping _).1 (by decide) (by decide),
   (c5_alias_mapping _).2.2.1 (by decide) (by decide),
   (c5_alias_mapping envAll).2.1 (by decide),
   (c5_alias_mapping envAll).2.2.2 (by decide)⟩

/-- Claim C6: the fallback-file parser skips blank lines and `#`-comment
lines, honours an existing binding, splits only on the first `=`, strips
one surrounding pair of quotes, and on the spec's three-line example file
produces exactly the single entry `KEY = quoted value`. -/
theorem c6_file_parsing (env : Env) (line : List Char) (k : String) :
    (trimChars line = [] → parseLine env line = env) ∧
    (startsWithChar '#' (trimChars line) = true → parseLine env line = env) ∧
    (truthy (env k) = true → parseLine env line k = env k) ∧
    (parseEnvContent "K=a=b" emptyEnv) "K" = some "a=b" ∧
    (∀ q, parseEnvContent "# comment\n\nKEY=\"quoted value\"" emptyEnv q =
      if q = "KEY" then some "quoted value" else none) := by
  refine ⟨?_, ?_, parseLine_preserve env line k, by decide, ?_⟩
  · intro h
    unfold parseLine
    rw [if_neg]
    rintro ⟨h1, -, -⟩
    exact h1 h
  · intro h
    unfold parseLine
    rw [if_neg]
    rintro ⟨-, h2, -⟩
    rw [h] at h2
    cases h2
  · intro q
    have h : parseEnvContent "# comment\n\nKEY=\"quoted value\"" emptyEnv =
        setEnv emptyEnv "KEY" "quoted value" := rfl
    rw [h, setEnv]
    split <;> rfl

/-- Witness for C6 at concrete inputs: a blank line and a comment line
leave the environment unchanged, and an existing binding is not
overwritten. -/
theorem c6_file_parsing_witness :
    parseLine envAll "   ".data = envAll ∧
    parseLine envAll "# comment".data = envAll ∧
    parseLine envAll "SITE_URL=other".data "SITE_URL" = envAll "SITE_URL" :=
  ⟨(c6_file_parsing envAll "   ".data "SITE_URL").1 (by decide),
   (c6_file_parsing envAll "# comment".data "SITE_URL").2.1 (by decide),
   (c6_file_parsing envAll "SITE_URL=other".data "SITE_URL").2.2.1 (by decide)⟩

/-- Claim C7: the site probe passes exactly on HTTP status 200, and its
detail string always reports the actual status. -/
theorem c7_site_exact_200 (w : SiteWorld) (s : Nat) (r : CheckResult)
    (hres : w.response = .ok s) (hrun : checkSiteUrl w = .ok r) :
    (r.ok = true ↔ s = 200) ∧ r.detail = "HTTP " ++ toString s := by
  unfold checkSiteUrl at hrun
  rw [hres] at hrun
  cases hrun
  exact ⟨by simp, rfl⟩

/-- Witness for C7 at status 301: the probe fails and the detail reads
`HTTP 301`. -/
theorem c7_site_exact_200_witness :
    ((⟨false, 7, "HTTP 301"⟩ : CheckResult).ok = true ↔ 301 = 200) ∧
    (⟨false, 7, "HTTP 301"⟩ : CheckResult).detail = "HTTP " ++ toString 301 :=
  c7_site_exact_200 ⟨.ok 301, 7⟩ 301 ⟨false, 7, "HTTP 301"⟩ rfl rfl

/-- Claim C8: the reported average is `Math.round` of the arithmetic mean
of the probes' elapsed milliseconds — which agrees with rounding to the
nearest integer — and equals 30 for elapsed times 10, 20, 30, 40, 50. -/
theorem c8_average_time (checks : List CheckResult) :
    averageMs checks =
      round ((checks.map (fun r => (r.ms : ℚ))).sum / (checks.length : ℚ)) ∧
    averageMs [⟨true, 10, "OK"⟩, ⟨true, 20, "OK"⟩, ⟨true, 30, "OK"⟩,
      ⟨true, 40, "OK"⟩, ⟨true, 50, "OK"⟩] = 30 := by
  constructor
  · rw [averageMs, jsMathRound, round_eq]
  · norm_num [averageMs, jsMathRound]

/-- Claim C10: a line without `=`, or whose value is empty after quote
stripping (`KEY=`, `KEY=""`), leaves the environment unchanged, and in
general the parser never binds a key to the empty string. -/
theorem c10_no_empty_value (env : Env) (line : List Char) (k : String) :
    (containsChar '=' (trimChars line) = false → parseLine env line = env) ∧
    (∀ key valueParts, splitChar '=' (trimChars line) = key :: valueParts →
      stripQuotes (List.intercalate ['='] valueParts) = [] →
      parseLine env line = env) ∧
    parseLine env "KEY=".data = env ∧
    parseLine env "KEY=\"\"".data = env ∧
    (parseLine env line k ≠ env k →
      ∃ v, parseLine env line k = some v ∧ v ≠ "") := by
  refine ⟨?_, ?_, ?_, ?_, ?_⟩
  · intro h
    unfold parseLine
    rw [if_neg]
    rintro ⟨-, -, h3⟩
    rw [h] at h3
    cases h3
  · intro key valueParts hsp hval
    unfold parseLine
    dsimp only
    by_cases hcond : trimChars line ≠ [] ∧ startsWithChar '#' (trimChars line) = false ∧
        containsChar '=' (trimChars line) = true
    · rw [if_pos hcond, hsp]
      dsimp only
      rw [if_neg]
      rintro ⟨-, h2, -⟩
      exact h2 hval
    · rw [if_neg hcond]
  · rfl
  · rfl
  · intro h
    unfold parseLine at h ⊢
    dsimp only at h ⊢
    by_cases hcond : trimChars line ≠ [] ∧ startsWithChar '#' (trimChars line) = false ∧
        containsChar '=' (trimChars line) = true
    case neg =>
      rw [if_neg hcond] at h
      exact absurd rfl h
    case pos =>
      rw [if_pos hcond] at h ⊢
      cases hsp : splitChar '=' (trimChars line) with
      | nil =>
        rw [hsp] at h
        exact absurd rfl h
      | cons key valueParts =>
        rw [hsp] at h
        dsimp only at h ⊢
        by_cases hguard : key ≠ [] ∧ stripQuotes (List.intercalate ['='] valueParts) ≠ [] ∧
            truthy (env (String.mk key)) = false
        case neg =>
          rw [if_neg hguard] at h
          exact absurd rfl h
        case pos =>
          rw [if_pos hguard] at h ⊢
          by_cases hk : k = String.mk key
          · subst hk
            rw [setEnv_self]
            exact ⟨_, rfl, fun he => hguard.2.1 (congrArg String.data he)⟩
          · rw [setEnv_ne _ _ _ hk] at h
            exact absurd rfl h

/-- Witness for C10 at concrete inputs: an `=`-free line and an
empty-quoted value leave the environment unchanged, and the one binding
the parser does make on `B=val` is non-empty. -/
theorem c10_no_empty_value_witness :
    parseLine envAll "no equals sign".data = envAll ∧
    parseLine emptyEnv "KEY=\"\"".data = emptyEnv ∧
    ∃ v, parseLine emptyEnv "B=val".data "B" = some v ∧ v ≠ "" :=
  ⟨(c10_no_empty_value envAll "no equals sign".data "B").1 (by decide),
   (c10_no_empty_value emptyEnv "KEY=\"\"".data "B").2.1 "KEY".data ["\"\"".data]
     (by decide) (by decide),
   (c10_no_empty_value emptyEnv "B=val".data "B").2.2.2.2 (by decide)⟩

/-- The missing-key list computed by `main` is empty exactly when every
required variable is present. -/
theorem missingKeys_nil_iff (env : Env) :
    ((logEnvStatus env).filter (fun p => !p.2)).map Prod.fst = [] ↔
      ∀ k ∈ REQUIRED_VARS, present env k = true := by
  rw [List.map_eq_nil_iff, List.filter_eq_nil_iff]
  unfold logEnvStatus
  constructor
  · intro h k hk
    have := h (k, present env k) (List.mem_map.mpr ⟨k, hk, rfl⟩)
    simpa using this
  · rintro h p hp
    obtain ⟨k, hk, rfl⟩ := List.mem_map.mp hp
    simp [h k hk]

/-- Claim C1: the process exits 0 exactly when all ten required variables
are present after resolution and all five probes report success, and exits
1 otherwise. -/
theorem c1_exit_code (cli : CliWorld) (fs : FileSystem) (env0 : Env)
    (w : ProbeWorld) (envF : Env) (hres : resolveEnv cli fs env0 = .ok envF) :
    (main cli fs env0 w = 0 ∨ main cli fs env0 w = 1) ∧
    (main cli fs env0 w = 0 ↔
      ((∀ k ∈ REQUIRED_VARS, present envF k = true) ∧
        ∃ rs, runChecks w = .ok rs ∧ ∀ r ∈ rs, r.ok = true)) := by
  obtain ⟨r1, r2, r3, r4, r5, hrun, -, -, -, -, -⟩ := runChecks_fulfilled w
  unfold main
  rw [hres, hrun]
  dsimp only
  constructor
  · split
    · exact Or.inl rfl
    · exact Or.inr rfl
  · split
    · next hc =>
      rw [Bool.and_eq_true] at hc
      obtain ⟨henv, hall⟩ := hc
      rw [beq_iff_eq, List.length_eq_zero] at henv
      constructor
      · intro _
        refine ⟨(missingKeys_nil_iff envF).mp henv,
          [r1, r2, r3, r4, r5], rfl, ?_⟩
        intro r hr
        exact List.all_eq_true.mp hall r hr
      · intro _
        rfl
    · next hc =>
      constructor
      · intro h0
        exact absurd h0 (by decide)
      · rintro ⟨henv, rs, hrs, hall⟩
        exfalso
        apply hc
        have hrseq : rs = [r1, r2, r3, r4, r5] :=
          (Except.ok.inj hrs).symm
        rw [Bool.and_eq_true]
        refine ⟨?_, ?_⟩
        · rw [beq_iff_eq, List.length_eq_zero]
          exact (missingKeys_nil_iff envF).mpr henv
        · rw [List.all_eq_true]
          intro r hr
          exact hall r (hrseq ▸ hr)

/-- Witness for C1: with all ten variables set and all five probes
succeeding, the process exits 0. -/
theorem c1_exit_code_witness : main unlinkedCli fsAbsent envAll goodProbes = 0 :=
  ((c1_exit_code unlinkedCli fsAbsent envAll goodProbes (mapEnvVars envAll) rfl).2).mpr
    ⟨by decide,
     [⟨true, 10, "OK"⟩, ⟨true, 20, "Inserted dummy record"⟩,
      ⟨true, 30, "Product prod_123"⟩, ⟨true, 40, "Email API reachable"⟩,
      ⟨true, 50, "HTTP 200"⟩], rfl, by decide⟩

/-- Counterexample to claim C3 as stated: when `.env` exists but reading
it throws (here a permission error), the exception escapes the resolver —
resolution does not complete and the run exits 1 without the probe
outcomes mattering, even though the hosting CLI failure itself was
caught. -/
theorem c3_resolver_counterexample :
    resolveEnv brokenCli fsUnreadable emptyEnv =
      .error "EACCES: permission denied, open .env" ∧
    main brokenCli fsUnreadable emptyEnv goodProbes = 1 :=
  ⟨rfl, rfl⟩

/-- Claim C3 amended: every hosting-CLI failure is caught, and resolution
always completes whenever the fallback file is missing or its read
succeeds; only an existing-but-unreadable fallback file makes the resolver
throw. -/
theorem c3_resolver_amended (cli : CliWorld) (fs : FileSystem) (env : Env)
    (h : fs.envFileExists = false ∨ ∃ c, fs.readEnvFile = .ok c) :
    ∃ envF, resolveEnv cli fs env = .ok envF := by
  rcases hl : loadEnvFromNetlify cli env with ⟨env1, loaded⟩
  have hfile : ∃ env2, loadEnvFromFile fs env1 = .ok env2 := by
    unfold loadEnvFromFile
    rcases h with hx | ⟨c, hc⟩
    · rw [hx, if_neg Bool.false_ne_true]
      exact ⟨_, rfl⟩
    · cases hfe : fs.envFileExists
      case false =>
        rw [if_neg Bool.false_ne_true]
        exact ⟨_, rfl⟩
      case true =>
        rw [if_pos rfl, hc]
        exact ⟨_, rfl⟩
  obtain ⟨env2, henv2⟩ := hfile
  unfold resolveEnv
  rw [hl]
  dsimp only
  cases loaded
  case true =>
    rw [if_pos rfl]
    exact ⟨_, rfl⟩
  case false =>
    rw [if_neg Bool.false_ne_true, henv2]
    exact ⟨_, rfl⟩

/-- Witness for the amended C3: with the CLI broken and no fallback file,
resolution still completes. -/
theorem c3_resolver_amended_witness :
    ∃ envF, resolveEnv brokenCli fsAbsent emptyEnv = .ok envF :=
  c3_resolver_amended brokenCli fsAbsent emptyEnv (Or.inl rfl)

/-- Claim C9: a required variable is counted present exactly when its
value exists and contains a non-whitespace character, so a
whitespace-only value is reported missing and forces exit code 1. -/
theorem c9_whitespace_missing (env : Env) (k : String) :
    (present env k = true ↔
      ∃ v, env k = some v ∧ v.data.any (fun c => !isWS c) = true) ∧
    (∀ cli fs env0 w v envF, k ∈ REQUIRED_VARS →
      resolveEnv cli fs env0 = .ok envF → envF k = some v →
      v.data.all isWS = true → main cli fs env0 w = 1) := by
  constructor
  · unfold present
    cases henv : env k with
    | none => simp
    | some v =>
      constructor
      · intro h
        rw [Bool.and_eq_true] at h
        refine ⟨v, rfl, ?_⟩
        have hne : jsTrim v ≠ "" := by simpa using h.2
        have ht : trimChars v.data ≠ [] := fun hnil => hne (congrArg String.mk hnil)
        rw [List.any_eq_true]
        by_contra hno
        push_neg at hno
        apply ht
        rw [trimChars_eq_nil_iff]
        intro c hc
        have := hno c hc
        simpa using this
      · rintro ⟨v', hv', hany⟩
        have hvv : v' = v :=
          (Option.some.inj hv').symm
        subst hvv
        obtain ⟨c, hc, hcws⟩ := List.any_eq_true.mp hany
        rw [Bool.and_eq_true]
        constructor
        · have : v'.data ≠ [] := fun hnil => by rw [hnil] at hc; cases hc
          simpa using fun he => this (congrArg String.data he)
        · have ht : trimChars v'.data ≠ [] := by
            rw [Ne, trimChars_eq_nil_iff]
            intro hall
            rw [hall c hc] at hcws
            cases hcws
          simpa using fun he => ht (congrArg String.data he)
  · intro cli fs env0 w v envF hkreq hres hv hws
    have hpres : present envF k = false := by
      unfold present
      rw [hv]
      dsimp only
      have htrim : jsTrim v = "" := by
        show String.mk (trimChars v.data) = ""
        rw [(trimChars_eq_nil_iff v.data).mpr (List.all_eq_true.mp hws)]
      rw [htrim]
      simp
    obtain ⟨r1, r2, r3, r4, r5, hrun, -, -, -, -, -⟩ := runChecks_fulfilled w
    unfold main
    rw [hres, hrun]
    dsimp only
    split
    · next hc =>
      exfalso
      rw [Bool.and_eq_true] at hc
      have henv := hc.1
      rw [beq_iff_eq, List.length_eq_zero] at henv
      have := (missingKeys_nil_iff envF).mp henv k hkreq
      rw [hpres] at this
      cases this
    · rfl

/-- Witness for C9: the presence test at a fully-set environment, and a
run in which `SITE_URL` is set to three spaces exits 1 although every
probe succeeds. -/
theorem c9_whitespace_missing_witness :
    (present envAll "SITE_URL" = true ↔
      ∃ v, envAll "SITE_URL" = some v ∧ v.data.any (fun c => !isWS c) = true) ∧
    main unlinkedCli fsAbsent (setEnv envAll "SITE_URL" "   ") goodProbes = 1 :=
  ⟨(c9_whitespace_missing envAll "SITE_URL").1,
   (c9_whitespace_missing envAll "SITE_URL").2 unlinkedCli fsAbsent
     (setEnv envAll "SITE_URL" "   ") goodProbes "   "
     (mapEnvVars (setEnv envAll "SITE_URL" "   "))
     (by decide) rfl (by decide) (by decide)⟩

/-- Claim C4: the first source to assign a key wins.  A truthy value
already in the process environment survives the whole resolution, and a
value the CLI loads for a required key is the final value regardless of
what the fallback file contains. -/
theorem c4_first_writer_wins (cli : CliWorld) (fs : FileSystem) (env0 : Env)
    (k v out : String) (envF : Env) :
    (resolveEnv cli fs env0 = .ok envF → env0 k = some v → v ≠ "" →
      envF k = some v) ∧
    (cli.linkOutcome = .ok true → truthy (env0 k) = false → k ∈ REQUIRED_VARS →
      cli.envGet k = .ok out → goodValue (jsTrim out) = true →
      resolveEnv cli fs env0 = .ok envF → envF k = some (jsTrim out)) := by
  constructor
  · intro hres h0 hv
    have htr : truthy (env0 k) = true := by
      rw [h0]
      exact (truthy_some_iff v).mpr hv
    unfold resolveEnv at hres
    rcases hl : loadEnvFromNetlify cli env0 with ⟨env1, loaded⟩
    rw [hl] at hres
    dsimp only at hres
    have henv1 : env1 k = env0 k := by
      have := loadEnvFromNetlify_preserve cli env0 k htr
      rw [hl] at this
      exact this
    have htr1 : truthy (env1 k) = true := by
      rw [henv1]
      exact htr
    cases loaded
    case true =>
      rw [if_pos rfl] at hres
      cases hres
      rw [mapEnvVars_preserve env1 k htr1, henv1, h0]
    case false =>
      rw [if_neg Bool.false_ne_true] at hres
      cases hfile : loadEnvFromFile fs env1 with
      | error e =>
        rw [hfile] at hres
        cases hres
      | ok env2 =>
        rw [hfile] at hres
        cases hres
        have henv2 : env2 k = env1 k := by
          unfold loadEnvFromFile at hfile
          split at hfile
          · cases hrf : fs.readEnvFile with
            | error e =>
              rw [hrf] at hfile
              cases hfile
            | ok content =>
              rw [hrf] at hfile
              cases hfile
              exact parseEnvContent_preserve content env1 k htr1
          · cases hfile
            rfl
        rw [mapEnvVars_preserve env2 k (by rw [henv2]; exact htr1), henv2, henv1, h0]
  · intro hlink hf hk hg hgv hres
    have hne : jsTrim out ≠ "" := by
      intro he
      rw [he] at hgv
      exact absurd hgv (by decide)
    unfold resolveEnv at hres
    have hl : loadEnvFromNetlify cli env0 =
        ((REQUIRED_VARS.foldl (netlifyStep cli.envGet) (env0, 0)).1,
          decide (0 < (REQUIRED_VARS.foldl (netlifyStep cli.envGet) (env0, 0)).2)) := by
      unfold loadEnvFromNetlify
      rw [hlink]
    obtain ⟨hval, hcount⟩ :=
      netlifyFold_sets cli.envGet REQUIRED_VARS (env0, 0) k out hk hf hg hgv
    rw [hl] at hres
    dsimp only at hres
    rw [if_pos (decide_eq_true hcount)] at hres
    cases hres
    rw [mapEnvVars_preserve _ k (by rw [hval]; exact (truthy_some_iff _).mpr hne), hval]

/-- Witness for C4: with an empty starting environment the CLI-sourced
`SITE_URL` is the final value, whatever the fallback file says. -/
theorem c4_first_writer_wins_witness :
    mapEnvVars (setEnv emptyEnv "SITE_URL" (jsTrim "https://example.com")) "SITE_URL" =
      some (jsTrim "https://example.com") :=
  (c4_first_writer_wins partialCli fsAbsent emptyEnv "SITE_URL" "v" "https://example.com"
      (mapEnvVars (setEnv emptyEnv "SITE_URL" (jsTrim "https://example.com")))).2
    rfl (by decide) (by decide) rfl (by decide) (by rfl)

end ProdCheck
